import Mathlib

/-!
Shallow embedding of the core of the bank-statement analyzer:

* the Monthly Aggregation Engine of `src/components/MonthlyAnalysisTable.tsx`
  (the `entries.forEach` accumulation into `analysis` / `monthlyTotals` /
  `allMonths`, and the derived `grandTotal`, `transactionCount`, `bestMonth`
  computed in `handleGeneratePdf`), and
* the Resilient Extraction Client of `src/services/geminiService.ts`
  (`analyzeStatement`: API-key cleaning and validation, the retry loop with
  error classification and exponential backoff).

JavaScript objects used as string-keyed dictionaries are embedded as
association lists kept in insertion order (JS object iteration order for
non-index string keys), `number` amounts as ℚ, and the external model call
as an oracle `Nat → AttemptResult` giving the outcome of each attempt.
-/

namespace BankAnalyzer

/-! ### String primitives

The JS string operations used by the source (`split`, `trim`, `includes`,
`startsWith`, `endsWith`, `substring`, one-character strips) are embedded as
structurally recursive functions on the character list of a `String`. -/

/-- JS `str.split('-')` on a character list: the runs between `'-'`
separators, with empty runs kept (so `"".split('-') = [""]` and a leading
or trailing separator yields an empty part). -/
def splitDash : List Char → List (List Char)
  | [] => [[]]
  | c :: rest =>
    let r := splitDash rest
    if c = '-' then [] :: r
    else
      match r with
      | [] => [[c]]
      | p :: ps => (c :: p) :: ps

/-- Whether `pat` occurs as a contiguous run inside `l`. -/
def containsSub (pat : List Char) : List Char → Bool
  | [] => pat.isEmpty
  | c :: rest => pat.isPrefixOf (c :: rest) || containsSub pat rest

/-- JS `s.includes(pat)`. -/
def strContains (s pat : String) : Bool :=
  containsSub pat.data s.data

/-- JS `s.startsWith(pat)`. -/
def strStartsWith (s pat : String) : Bool :=
  pat.data.isPrefixOf s.data

/-- JS `s.endsWith(pat)`. -/
def strEndsWith (s pat : String) : Bool :=
  pat.data.reverse.isPrefixOf s.data.reverse

/-- JS `s.trim()`: strip whitespace from both ends. -/
def strTrim (s : String) : String :=
  String.mk (((s.data.dropWhile Char.isWhitespace).reverse.dropWhile Char.isWhitespace).reverse)

/-- Drop the first `n` characters. -/
def strDropLeft (s : String) (n : ℕ) : String :=
  String.mk (s.data.drop n)

/-- Drop the last `n` characters. -/
def strDropRight (s : String) (n : ℕ) : String :=
  String.mk (s.data.take (s.data.length - n))

/-- JS `s.substring(0, n)`: the first `n` characters. -/
def strTake (s : String) (n : ℕ) : String :=
  String.mk (s.data.take n)

/-- Record `PositiveEntry` from `src/types.ts`: one normalized credit transaction. -/
structure PositiveEntry where
  description : String
  amount : ℚ
  date : String
deriving Repr, DecidableEq

/-- Record `GeminiResponse` from `src/types.ts`. -/
structure GeminiResponse where
  clientName : String
  positiveEntries : List PositiveEntry
deriving Repr, DecidableEq

/-! ### Monthly Aggregation Engine (`MonthlyAnalysisTable.tsx`) -/

/-- First-match association-list lookup (JS `obj[key]` on a string-keyed
object). -/
def lookupKey {α : Type} : List (String × α) → String → Option α
  | [], _ => none
  | (k, v) :: rest, q => if k = q then some v else lookupKey rest q

/-- Add `a` to the value stored at key `k`, inserting `(k, a)` at the end when
the key is absent.  This is the JS idiom
`if (!m[k]) m[k] = 0; m[k] += a;` — the key keeps its original position when
present (including when its current value is `0`), and a fresh key is appended
in insertion order. -/
def bump (k : String) (a : ℚ) : List (String × ℚ) → List (String × ℚ)
  | [] => [(k, a)]
  | (k', v) :: rest => if k' = k then (k', v + a) :: rest else (k', v) :: bump k a rest

/-- Per-description record of `analysis`: the per-month sums (the JS object's
month-keyed fields) together with its `total` field. -/
structure DescRecord where
  months : List (String × ℚ)
  total : ℚ
deriving Repr, DecidableEq

/-- Update `analysis[d]` for an entry of amount `a` in month `m`
(lines 38-45 of `MonthlyAnalysisTable.tsx`): create the record on first
sight of the description, then bump both the month cell and the `total`. -/
def bumpAnalysis (d m : String) (a : ℚ) :
    List (String × DescRecord) → List (String × DescRecord)
  | [] => [(d, ⟨[(m, a)], a⟩)]
  | (d', r) :: rest =>
    if d' = d then (d', ⟨bump m a r.months, r.total + a⟩) :: rest
    else (d', r) :: bumpAnalysis d m a rest

/-- Insertion-ordered set add (`allMonths.add(monthYear)` on the JS `Set`). -/
def insertMonth (m : String) (l : List String) : List String :=
  if m ∈ l then l else l ++ [m]

/-- The accumulator state of the `entries.forEach` loop:
`analysis`, `monthlyTotals` and `allMonths`. -/
structure AggState where
  analysis : List (String × DescRecord)
  monthlyTotals : List (String × ℚ)
  allMonths : List String
deriving Repr, DecidableEq

def initAggState : AggState := ⟨[], [], []⟩

/-- The `YYYY-MM` month key of a date string:
`const [year, month] = entry.date.split('-')` followed by the template
literal `` `${year}-${month}` ``.  When the split yields fewer than two
parts, the JS destructuring leaves `month` as `undefined` and the template
literal renders the literal text `undefined`. -/
def monthKeyOf (date : String) : String :=
  let parts := (splitDash date.data).map String.mk
  parts.getD 0 "undefined" ++ "-" ++ parts.getD 1 "undefined"

/-- One iteration of the `entries.forEach` body (lines 32-51):
skip when `date` or `description` is falsy (the empty string), otherwise
accumulate into all three dictionaries. -/
def stepEntry (s : AggState) (e : PositiveEntry) : AggState :=
  if e.date = "" ∨ e.description = "" then s
  else
    let monthYear := monthKeyOf e.date
    { analysis := bumpAnalysis e.description monthYear e.amount s.analysis
      monthlyTotals := bump monthYear e.amount s.monthlyTotals
      allMonths := insertMonth monthYear s.allMonths }

/-- The full accumulation over the entry list. -/
def aggState (entries : List PositiveEntry) : AggState :=
  entries.foldl stepEntry initAggState

/-- Whether an entry survives the `if (!entry.date || !entry.description) return;`
guard. -/
def includedEntry (e : PositiveEntry) : Bool :=
  !(e.date = "" || e.description = "")

/-- Derived `columnTotals`: the `monthlyTotals` dictionary in
`Object.entries` (insertion) order. -/
def columnTotalsList (entries : List PositiveEntry) : List (String × ℚ) :=
  (aggState entries).monthlyTotals

/-- Derived `rowTotals`: each description with its `analysis[description].total`. -/
def rowTotalsList (entries : List PositiveEntry) : List (String × ℚ) :=
  (aggState entries).analysis.map (fun p => (p.1, p.2.total))

/-- Derived `grandTotal` (line 64): `Object.values(monthlyTotals).reduce((s, t) => s + t, 0)`. -/
def grandTotal (entries : List PositiveEntry) : ℚ :=
  ((aggState entries).monthlyTotals.map Prod.snd).sum

/-- Derived `transactionCount` (line 65): `entries.length`, the unfiltered input length. -/
def transactionCount (entries : List PositiveEntry) : ℕ :=
  entries.length

/-- Derived `bestMonth` (lines 69-71):
`Object.entries(monthlyTotals).reduce((best, current) => current[1] > best[1] ? current : best, ['', 0])`. -/
def bestMonth (entries : List PositiveEntry) : String × ℚ :=
  (aggState entries).monthlyTotals.foldl
    (fun best current => if current.2 > best.2 then current else best) ("", 0)

/-- Key presence of a `(description, monthKey)` cell in an `analysis`
dictionary. -/
def cellPresentA (l : List (String × DescRecord)) (d m : String) : Bool :=
  match lookupKey l d with
  | none => false
  | some r => (lookupKey r.months m).isSome

/-- Key presence of a `(description, monthKey)` cell in the accumulator
(the table body renders `analysis[description][monthYear]` only when the
key is present, line 146 / 251). -/
def cellPresent (s : AggState) (d m : String) : Bool :=
  cellPresentA s.analysis d m

/-! ### Resilient Extraction Client (`geminiService.ts`) -/

/-- Key cleaning (line 61):
`rawApiKey ? rawApiKey.trim().replace(/^["']|["']$/g, '') : ''`.
The regex removes one leading and one trailing quote character (double or
single); embedded here as a conditional drop at each end, applied after
`trim`. -/
def stripQuotes (s : String) : String :=
  let s1 := if strStartsWith s "\"" || strStartsWith s "\x27" then strDropLeft s 1 else s
  if strEndsWith s1 "\"" || strEndsWith s1 "\x27" then strDropRight s1 1 else s1

/-- The cleaned API key: the JS conditional keeps `''` falsy raw keys as-is
and otherwise trims and strips quotes. -/
def cleanApiKey (rawApiKey : String) : String :=
  if rawApiKey = "" then "" else stripQuotes (strTrim rawApiKey)

/-- Error message thrown when the cleaned key is empty (lines 65-72). -/
def missingKeyMsg : String :=
  "CHAVE DE API NÃO ENCONTRADA.\n\nNo Vercel:\n1. Defina a variável de ambiente \x27VITE_API_KEY\x27.\n2. Vá em Deployments > Redeploy para aplicar."

/-- Error message thrown when the cleaned key does not start with `AIza`
(lines 75-81); it interpolates `apiKey.substring(0, 5)`. -/
def malformedKeyMsg (apiKey : String) : String :=
  "A chave de API configurada parece inválida (não começa com \x27AIza\x27).\nValor atual detectado (início): \x27"
    ++ strTake apiKey 5
    ++ "...\x27\nVerifique no Vercel se você não copiou o \x27Project ID\x27 ou colou caracteres estranhos."

/-- Error thrown by response validation (line 133). -/
def malformedResponseMsg : String :=
  "A resposta da IA não continha a estrutura esperada (clientName e positiveEntries)."

/-- Error thrown for 400 / auth failures (lines 143-149). -/
def authErrMsg : String :=
  "Erro 400 (API Key Inválida ou Bloqueada).\n\nPossíveis causas no Vercel:\n1. A chave contém aspas ou espaços (ex: \x27 AIza... \x27).\n2. *MAIS COMUM*: Sua chave tem \x27Restrições de Aplicativo\x27 (HTTP Referrer) no Google AI Studio que bloqueiam o domínio do Vercel.\n\nSOLUÇÃO: Vá ao console do Google (aistudio.google.com/app/apikey), edite a chave e remova as restrições de domínio temporariamente para testar."

/-- Error thrown for safety blocks (line 154). -/
def safetyErrMsg : String :=
  "A análise foi bloqueada por políticas de segurança do Google. Tente uma imagem diferente (menos complexa ou sem dados sensíveis visíveis)."

/-- Fallback of the final `throw` (line 172) when the last error message is
falsy. -/
def defaultInstabilityMsg : String :=
  "O serviço da IA está instável (503). Por favor, tente novamente em alguns segundos."

/-- Message of the final throw: `lastError?.message || default`. -/
def finalMsg (last : String) : String :=
  if last = "" then defaultInstabilityMsg else last

/-- Line 142: 400 / key-invalid / invalid-argument ⇒ fatal auth error. -/
def isAuthMsg (msg : String) : Bool :=
  strContains msg "400" || strContains msg "API_KEY_INVALID" || strContains msg "INVALID_ARGUMENT"

/-- Line 153: safety block ⇒ fatal. -/
def isSafetyMsg (msg : String) : Bool :=
  strContains msg "SAFETY"

/-- Line 158: `msg.includes("503") || msg.includes("overloaded") || msg.includes("429")`. -/
def isTransientMsg (msg : String) : Bool :=
  strContains msg "503" || strContains msg "overloaded" || strContains msg "429"

/-- The error taxonomy of the spec, in the order the `catch` block tests the
message (auth before safety before transient). -/
inductive ErrKind
  | auth
  | safety
  | transient
  | unknown
deriving Repr, DecidableEq

/-- Classification of a caught error message, following the `catch` block's
test order. -/
def classify (msg : String) : ErrKind :=
  if isAuthMsg msg then .auth
  else if isSafetyMsg msg then .safety
  else if isTransientMsg msg then .transient
  else .unknown

/-- The parsed JSON body of one external response, as far as the validation
at lines 132-134 observes it: whether the top-level `clientName` key is
present, whether `positiveEntries` is an array, and the carried values. -/
structure RawResponse where
  clientNamePresent : Bool
  entriesIsArray : Bool
  clientName : String
  entries : List PositiveEntry
deriving Repr, DecidableEq

/-- The outcome of one attempt of the external call: either a response whose
body parses to `RawResponse`, or a thrown error carrying a message. -/
inductive AttemptResult
  | response (r : RawResponse)
  | failure (msg : String)
deriving Repr, DecidableEq

/-- What one `try` body produces: the validated result, or the message that
reaches the `catch` block (a thrown call error, or the validation error for
a malformed body). -/
def attemptOutcome : AttemptResult → Except String GeminiResponse
  | .response r =>
    if r.clientNamePresent && r.entriesIsArray then
      .ok ⟨r.clientName, r.entries⟩
    else .error malformedResponseMsg
  | .failure msg => .error msg

/-- The overall outcome of `analyzeStatement`: the resolved value or the
message of the thrown error. -/
inductive AnalyzeResult
  | success (resp : GeminiResponse)
  | failure (msg : String)
deriving Repr, DecidableEq

/-- Observable trace of one `analyzeStatement` run: how many external
attempts were made, the backoff waits performed (milliseconds, in order),
and the outcome. -/
structure RunTrace where
  attempts : ℕ
  waits : List ℕ
  result : AnalyzeResult
deriving Repr, DecidableEq

/-- Attempt budget `const maxRetries = 3` (line 105). -/
def maxRetries : ℕ := 3

/-- The retry `for` loop (lines 108-169) plus the final throw (line 172).
`fuel` is the number of loop iterations still allowed
(`maxRetries - attempt`), `attempt` the 0-based attempt counter, and `last`
the current `lastError` message.  Each iteration runs the external call via
the `oracle`, classifies a caught message in the order of the `catch` block,
and either rethrows a fatal message, waits `1000 * 2 ^ attempt` ms and
continues on a transient message with attempts remaining, or breaks to the
final throw. -/
def runLoop (oracle : ℕ → AttemptResult) : ℕ → ℕ → String → RunTrace
  | 0, _, last => ⟨0, [], .failure (finalMsg last)⟩
  | fuel + 1, attempt, _ =>
    match attemptOutcome (oracle attempt) with
    | .ok resp => ⟨1, [], .success resp⟩
    | .error msg =>
      if isAuthMsg msg then ⟨1, [], .failure authErrMsg⟩
      else if isSafetyMsg msg then ⟨1, [], .failure safetyErrMsg⟩
      else if isTransientMsg msg ∧ attempt < maxRetries - 1 then
        let t := runLoop oracle fuel (attempt + 1) msg
        ⟨t.attempts + 1, 1000 * 2 ^ attempt :: t.waits, t.result⟩
      else ⟨1, [], .failure (finalMsg msg)⟩

/-- Function `analyzeStatement` (lines 40-173), abstracted over the raw API key read
from the environment and the external-call oracle: clean and validate the
key before any network call, then run the retry loop. -/
def analyzeStatement (rawApiKey : String) (oracle : ℕ → AttemptResult) : RunTrace :=
  let apiKey := cleanApiKey rawApiKey
  if apiKey = "" then ⟨0, [], .failure missingKeyMsg⟩
  else if ¬ strStartsWith apiKey "AIza" then ⟨0, [], .failure (malformedKeyMsg apiKey)⟩
  else runLoop oracle maxRetries 0 ""

/-! ### Lemmas about the aggregation accumulator -/

theorem stepEntry_excluded (s : AggState) (e : PositiveEntry)
    (h : includedEntry e = false) : stepEntry s e = s := by
  unfold includedEntry at h
  simp only [Bool.not_eq_false', Bool.or_eq_true, decide_eq_true_eq] at h
  simp [stepEntry, h]

theorem foldl_stepEntry_filter (l : List PositiveEntry) :
    ∀ s : AggState, (l.filter includedEntry).foldl stepEntry s = l.foldl stepEntry s := by
  induction l with
  | nil => intro s; rfl
  | cons e rest ih =>
    intro s
    by_cases h : includedEntry e
    · simp [List.filter_cons, h, List.foldl_cons, ih]
    · have h' : includedEntry e = false := by simpa using h
      simp [List.filter_cons, h', List.foldl_cons, ih, stepEntry_excluded s e h']

theorem bump_snd_sum (k : String) (a : ℚ) (l : List (String × ℚ)) :
    ((bump k a l).map Prod.snd).sum = (l.map Prod.snd).sum + a := by
  induction l with
  | nil => simp [bump]
  | cons p rest ih =>
    by_cases h : p.1 = k
    · cases p; simp_all [bump]; ring
    · cases p; simp_all [bump]; ring

theorem bumpAnalysis_total_sum (d m : String) (a : ℚ) (l : List (String × DescRecord)) :
    ((bumpAnalysis d m a l).map (fun p => p.2.total)).sum
      = (l.map (fun p => p.2.total)).sum + a := by
  induction l with
  | nil => simp [bumpAnalysis]
  | cons p rest ih =>
    by_cases h : p.1 = d
    · cases p; simp_all [bumpAnalysis]; ring
    · cases p; simp_all [bumpAnalysis]; ring

/-- The sum of the per-description `total` fields of the accumulator. -/
def rowSum (s : AggState) : ℚ :=
  (s.analysis.map (fun p => p.2.total)).sum

/-- The sum of the `monthlyTotals` values of the accumulator. -/
def colSum (s : AggState) : ℚ :=
  (s.monthlyTotals.map Prod.snd).sum

theorem stepEntry_rowSum (s : AggState) (e : PositiveEntry) :
    rowSum (stepEntry s e) = rowSum s + (if includedEntry e then e.amount else 0) := by
  by_cases h : includedEntry e
  · have h1 : ¬ (e.date = "" ∨ e.description = "") := by
      simpa [includedEntry] using h
    simp [stepEntry, h1, rowSum, bumpAnalysis_total_sum, h]
  · have h' : includedEntry e = false := by simpa using h
    simp [stepEntry_excluded s e h', h']

theorem stepEntry_colSum (s : AggState) (e : PositiveEntry) :
    colSum (stepEntry s e) = colSum s + (if includedEntry e then e.amount else 0) := by
  by_cases h : includedEntry e
  · have h1 : ¬ (e.date = "" ∨ e.description = "") := by
      simpa [includedEntry] using h
    simp [stepEntry, h1, colSum, bump_snd_sum, h]
  · have h' : includedEntry e = false := by simpa using h
    simp [stepEntry_excluded s e h', h']

theorem foldl_rowSum_eq_colSum (l : List PositiveEntry) :
    ∀ s : AggState, rowSum s = colSum s →
      rowSum (l.foldl stepEntry s) = colSum (l.foldl stepEntry s) := by
  induction l with
  | nil => intro s h; simpa using h
  | cons e rest ih =>
    intro s h
    exact ih (stepEntry s e) (by rw [stepEntry_rowSum, stepEntry_colSum, h])

/-! ### Claim C1 -/

/-- C1, counterexample: the claim says an entry with the invalid-month date
`"2024-13-01"` is excluded from all sums, so a list containing only such an
entry would have `grandTotal = 0`; the code includes it (only empty dates
and empty descriptions are skipped) and its `grandTotal` is `5`. -/
theorem C1_counterexample :
    grandTotal [⟨"A", 5, "2024-13-01"⟩] = 5 ∧ (5 : ℚ) ≠ 0 := by
  constructor
  · simp [grandTotal, aggState, stepEntry, initAggState, monthKeyOf, bump,
      bumpAnalysis, insertMonth, splitDash]
  · norm_num

/-- C1, amended: an entry is excluded from the aggregation accumulator (and
hence from all cells, row totals, column totals and the grand total) exactly
when its `date` or its `description` is the empty string — the whole
accumulator of a list equals that of the list filtered to the included
entries — while `statistics.transactionCount` is the length of the original
unfiltered input list. -/
theorem C1_exclusion_empty_only (entries : List PositiveEntry) :
    aggState (entries.filter includedEntry) = aggState entries ∧
      transactionCount entries = entries.length := by
  exact ⟨foldl_stepEntry_filter entries initAggState, rfl⟩

/-! ### Claim C2 -/

/-- C2: for every list of entries, `grandTotal` equals the sum of the
`rowTotals` values and equals the sum of the `columnTotals` values, exactly
(amounts are embedded as rationals). -/
theorem C2_grandTotal_eq_row_and_col_sums (entries : List PositiveEntry) :
    grandTotal entries = ((rowTotalsList entries).map Prod.snd).sum ∧
      grandTotal entries = ((columnTotalsList entries).map Prod.snd).sum := by
  have hrc : rowSum (aggState entries) = colSum (aggState entries) :=
    foldl_rowSum_eq_colSum entries initAggState (by simp [rowSum, colSum, initAggState])
  constructor
  · have : ((rowTotalsList entries).map Prod.snd).sum = rowSum (aggState entries) := by
      simp [rowTotalsList, rowSum, List.map_map, Function.comp_def]
    rw [this, hrc]; rfl
  · rfl

/-! ### Claim C8 -/

/-- Choose between the head entry `p` and the best entry of the tail,
preferring `p` on ties (so the first occurrence of the maximum wins). -/
def betterOf (p : String × ℚ) : Option (String × ℚ) → Option (String × ℚ)
  | none => some p
  | some q => if q.2 > p.2 then some q else some p

/-- Spec-side description of `bestMonth`, following the claim's words: the
entry whose value is maximal, resolving ties to the entry encountered first
in iteration order; `none` on the empty list. -/
def firstMax : List (String × ℚ) → Option (String × ℚ)
  | [] => none
  | p :: ps => betterOf p (firstMax ps)

theorem firstMax_eq_none {l : List (String × ℚ)} (h : firstMax l = none) : l = [] := by
  cases l with
  | nil => rfl
  | cons p ps =>
    rw [firstMax] at h
    rcases hq : firstMax ps with _ | q <;> rw [hq, betterOf] at h
    · simp at h
    · split at h <;> simp at h

theorem firstMax_mem : ∀ {l : List (String × ℚ)} {q : String × ℚ},
    firstMax l = some q → q ∈ l := by
  intro l
  induction l with
  | nil => intro q h; simp [firstMax] at h
  | cons p rest ih =>
    intro q h
    rw [firstMax] at h
    rcases hr : firstMax rest with _ | r <;> rw [hr, betterOf] at h
    · injection h with h
      subst h
      exact List.mem_cons_self p rest
    · by_cases hgt : r.2 > p.2
      · rw [if_pos hgt] at h
        injection h with h
        subst h
        exact List.mem_cons_of_mem p (ih hr)
      · rw [if_neg hgt] at h
        injection h with h
        subst h
        exact List.mem_cons_self p rest

theorem firstMax_is_max : ∀ {l : List (String × ℚ)} {q : String × ℚ},
    firstMax l = some q → ∀ p ∈ l, p.2 ≤ q.2 := by
  intro l
  induction l with
  | nil => intro q h; simp [firstMax] at h
  | cons p rest ih =>
    intro q h x hx
    rw [firstMax] at h
    rcases hr : firstMax rest with _ | r <;> rw [hr, betterOf] at h
    · have hrest : rest = [] := firstMax_eq_none hr
      subst hrest
      injection h with h
      subst h
      rcases List.mem_cons.mp hx with hxp | hxr
      · exact hxp ▸ le_refl _
      · simp at hxr
    · by_cases hgt : r.2 > p.2
      · rw [if_pos hgt] at h
        injection h with h
        subst h
        rcases List.mem_cons.mp hx with hxp | hxr
        · exact hxp ▸ le_of_lt hgt
        · exact ih hr x hxr
      · rw [if_neg hgt] at h
        injection h with h
        subst h
        rcases List.mem_cons.mp hx with hxp | hxr
        · exact hxp ▸ le_refl _
        · exact le_trans (ih hr x hxr) (not_lt.mp hgt)

theorem foldl_best_eq_firstMax (l : List (String × ℚ)) :
    ∀ best : String × ℚ,
      l.foldl (fun b c => if c.2 > b.2 then c else b) best
        = (match firstMax l with
           | none => best
           | some q => if q.2 > best.2 then q else best) := by
  induction l with
  | nil => intro best; rfl
  | cons p rest ih =>
    intro best
    rw [List.foldl_cons, ih, firstMax]
    rcases hr : firstMax rest with _ | q
    · simp [betterOf]
    · simp only [betterOf]
      by_cases hqp : q.2 > p.2
      · rw [if_pos hqp]
        show (if q.2 > (if p.2 > best.2 then p else best).2 then q
            else if p.2 > best.2 then p else best)
          = if q.2 > best.2 then q else best
        split_ifs <;> first | rfl | linarith
      · rw [if_neg hqp]
        show (if q.2 > (if p.2 > best.2 then p else best).2 then q
            else if p.2 > best.2 then p else best)
          = if p.2 > best.2 then p else best
        split_ifs <;> first | rfl | linarith

/-- C8, counterexample: with the single included entry
`("A", 0, "2024-01-10")` there is one included month, `"2024-01"`, yet
`bestMonth` is the reduce's initial sentinel `("", 0)` — not a month key of
`columnTotals` — because the strict `>` comparison never beats the
initial `['', 0]` when no total is positive.  This refutes the claim that
`bestMonth` is always the month key with maximal `columnTotals` value. -/
theorem C8_counterexample :
    columnTotalsList [⟨"A", 0, "2024-01-10"⟩] = [("2024-01", 0)] ∧
      bestMonth [⟨"A", 0, "2024-01-10"⟩] = ("", 0) ∧
      ("" : String) ≠ "2024-01" := by
  refine ⟨?_, ?_, by decide⟩
  · simp [columnTotalsList, aggState, stepEntry, initAggState, monthKeyOf, bump,
      bumpAnalysis, insertMonth, splitDash]
  · simp [bestMonth, aggState, stepEntry, initAggState, monthKeyOf, bump,
      bumpAnalysis, insertMonth, splitDash]

/-- C8, amended: whenever some `columnTotals` value is strictly positive,
`statistics.bestMonth` is the first entry of `columnTotals` in iteration
order achieving the maximal value (`firstMax`); in particular it is a
maximal entry of `columnTotals`.  (When every column total is `≤ 0` the
code instead returns the sentinel `("", 0)`, as the counterexample shows.) -/
theorem C8_bestMonth_firstMax (entries : List PositiveEntry)
    (h : ∃ p ∈ columnTotalsList entries, 0 < p.2) :
    ∃ q, firstMax (columnTotalsList entries) = some q ∧
      bestMonth entries = q ∧
      q ∈ columnTotalsList entries ∧
      ∀ p ∈ columnTotalsList entries, p.2 ≤ q.2 := by
  obtain ⟨p, hp, hpos⟩ := h
  rcases hq : firstMax (columnTotalsList entries) with _ | q
  · rw [firstMax_eq_none hq] at hp
    simp at hp
  · refine ⟨q, rfl, ?_, firstMax_mem hq, firstMax_is_max hq⟩
    have hqpos : (0 : ℚ) < q.2 := lt_of_lt_of_le hpos (firstMax_is_max hq p hp)
    unfold bestMonth
    rw [show (aggState entries).monthlyTotals = columnTotalsList entries from rfl,
      foldl_best_eq_firstMax, hq]
    exact if_pos hqpos

/-- C8, witness for the amended theorem at the concrete input of the spec's
example: one entry of amount `5` in January 2024. -/
theorem C8_bestMonth_firstMax_witness :
    ∃ q, firstMax (columnTotalsList [⟨"SALARIO", 5, "2024-01-10"⟩]) = some q ∧
      bestMonth [⟨"SALARIO", 5, "2024-01-10"⟩] = q ∧
      q ∈ columnTotalsList [⟨"SALARIO", 5, "2024-01-10"⟩] ∧
      ∀ p ∈ columnTotalsList [⟨"SALARIO", 5, "2024-01-10"⟩], p.2 ≤ q.2 :=
  C8_bestMonth_firstMax [⟨"SALARIO", 5, "2024-01-10"⟩]
    ⟨("2024-01", 5),
      by simp [columnTotalsList, aggState, stepEntry, initAggState, monthKeyOf, bump,
        bumpAnalysis, insertMonth, splitDash],
      by norm_num⟩

/-! ### Claim C9 -/

theorem lookupKey_bump_isSome (k : String) (a : ℚ) (q : String) :
    ∀ l : List (String × ℚ),
      (lookupKey (bump k a l) q).isSome = true ↔
        q = k ∨ (lookupKey l q).isSome = true := by
  intro l
  induction l with
  | nil =>
    by_cases h : k = q
    · subst h; simp [bump, lookupKey]
    · simp [bump, lookupKey, h, Ne.symm h]
  | cons p rest ih =>
    obtain ⟨k', v⟩ := p
    by_cases hk : k' = k
    · subst hk
      by_cases hq : k' = q <;> simp [bump, lookupKey, hq]
      tauto
    · by_cases hq : k' = q
      · have hqk : ¬ q = k := fun h => hk (hq.trans h)
        simp [bump, lookupKey, hk, hq, hqk]
      · simp [bump, lookupKey, hk, hq, ih]

theorem cellPresentA_cons (d' : String) (r : DescRecord)
    (rest : List (String × DescRecord)) (d m : String) :
    cellPresentA ((d', r) :: rest) d m
      = if d' = d then (lookupKey r.months m).isSome else cellPresentA rest d m := by
  by_cases h : d' = d <;> simp [cellPresentA, lookupKey, h]

theorem cellPresentA_bumpAnalysis (d0 m0 : String) (a : ℚ) (d m : String) :
    ∀ l : List (String × DescRecord),
      cellPresentA (bumpAnalysis d0 m0 a l) d m = true ↔
        ((d = d0 ∧ m = m0) ∨ cellPresentA l d m = true) := by
  intro l
  induction l with
  | nil =>
    rw [show bumpAnalysis d0 m0 a [] = [(d0, ⟨[(m0, a)], a⟩)] from rfl, cellPresentA_cons]
    by_cases hd : d0 = d
    · subst hd
      rw [if_pos rfl]
      by_cases hm : m0 = m
      · simp [lookupKey, hm]
      · simp [cellPresentA, lookupKey, hm, Ne.symm hm]
    · have hd2 : ¬ d = d0 := fun h => hd h.symm
      rw [if_neg hd]
      simp [cellPresentA, lookupKey, hd2]
  | cons p rest ih =>
    obtain ⟨d', r⟩ := p
    by_cases hA : d' = d0
    · rw [show bumpAnalysis d0 m0 a ((d', r) :: rest)
          = (d', ⟨bump m0 a r.months, r.total + a⟩) :: rest from by
        simp [bumpAnalysis, hA]]
      rw [cellPresentA_cons, cellPresentA_cons]
      by_cases hB : d' = d
      · rw [if_pos hB, if_pos hB]
        have hd0 : d = d0 := hB.symm.trans hA
        rw [lookupKey_bump_isSome]
        simp [hd0]
      · rw [if_neg hB, if_neg hB]
        have hnd : ¬ d = d0 := fun h => hB (hA.trans h.symm)
        simp [hnd]
    · rw [show bumpAnalysis d0 m0 a ((d', r) :: rest)
          = (d', r) :: bumpAnalysis d0 m0 a rest from by
        simp [bumpAnalysis, hA]]
      rw [cellPresentA_cons, cellPresentA_cons]
      by_cases hB : d' = d
      · rw [if_pos hB, if_pos hB]
        have hnd : ¬ d = d0 := fun h => hA (hB.trans h)
        simp [hnd]
      · rw [if_neg hB, if_neg hB]
        exact ih

theorem cellPresent_stepEntry (s : AggState) (e : PositiveEntry) (d m : String) :
    cellPresent (stepEntry s e) d m = true ↔
      ((includedEntry e = true ∧ e.description = d ∧ monthKeyOf e.date = m) ∨
        cellPresent s d m = true) := by
  by_cases h : includedEntry e
  · have h1 : ¬ (e.date = "" ∨ e.description = "") := by
      simpa [includedEntry] using h
    simp only [stepEntry, if_neg h1, cellPresent]
    rw [cellPresentA_bumpAnalysis]
    constructor
    · rintro (⟨rfl, rfl⟩ | h2)
      · exact Or.inl ⟨h, rfl, rfl⟩
      · exact Or.inr h2
    · rintro (⟨-, rfl, rfl⟩ | h2)
      · exact Or.inl ⟨rfl, rfl⟩
      · exact Or.inr h2
  · have h' : includedEntry e = false := by simpa using h
    rw [stepEntry_excluded s e h']
    simp [h']

theorem cellPresent_foldl (d m : String) :
    ∀ (l : List PositiveEntry) (s : AggState),
      cellPresent (l.foldl stepEntry s) d m = true ↔
        ((∃ e ∈ l, includedEntry e = true ∧ e.description = d ∧ monthKeyOf e.date = m) ∨
          cellPresent s d m = true) := by
  intro l
  induction l with
  | nil => intro s; simp
  | cons e rest ih =>
    intro s
    rw [List.foldl_cons, ih, cellPresent_stepEntry]
    constructor
    · rintro (⟨x, hx, hp⟩ | ⟨hp | hp⟩)
      · exact Or.inl ⟨x, List.mem_cons_of_mem e hx, hp⟩
      · exact Or.inl ⟨e, List.mem_cons_self e rest, hp⟩
      · exact Or.inr hp
    · rintro (⟨x, hx, hp⟩ | hp)
      · rcases List.mem_cons.mp hx with rfl | hx'
        · exact Or.inr (Or.inl hp)
        · exact Or.inl ⟨x, hx', hp⟩
      · exact Or.inr (Or.inr hp)

/-- C9: a `(description, monthKey)` cell key is present in the `analysis`
mapping if and only if some entry of the input that survives the
empty-date/empty-description guard has exactly that description and that
month key; a pair with no contributing entries is represented by key
absence, so a month with no transactions stays distinguishable from a
month whose net amount is zero. -/
theorem C9_cell_key_iff_included_entry (entries : List PositiveEntry) (d m : String) :
    cellPresent (aggState entries) d m = true ↔
      ∃ e ∈ entries, includedEntry e = true ∧ e.description = d ∧ monthKeyOf e.date = m := by
  unfold aggState
  rw [cellPresent_foldl]
  simp [cellPresent, cellPresentA, initAggState, lookupKey]

/-! ### Lemmas about the extraction client -/

theorem classify_transient_iff (m : String) :
    classify m = .transient ↔
      isAuthMsg m = false ∧ isSafetyMsg m = false ∧ isTransientMsg m = true := by
  cases hA : isAuthMsg m <;> cases hS : isSafetyMsg m <;> cases hT : isTransientMsg m <;>
    simp [classify, hA, hS, hT]

theorem classify_auth_iff (m : String) :
    classify m = .auth ↔ isAuthMsg m = true := by
  cases hA : isAuthMsg m <;> cases hS : isSafetyMsg m <;> cases hT : isTransientMsg m <;>
    simp [classify, hA, hS, hT]

theorem classify_safety_iff (m : String) :
    classify m = .safety ↔ isAuthMsg m = false ∧ isSafetyMsg m = true := by
  cases hA : isAuthMsg m <;> cases hS : isSafetyMsg m <;> cases hT : isTransientMsg m <;>
    simp [classify, hA, hS, hT]

theorem transient_msg_ne_empty (m : String) (h : isTransientMsg m = true) : m ≠ "" := by
  intro he
  rw [he] at h
  exact absurd h (by decide)

theorem runLoop_ok (oracle : ℕ → AttemptResult) (fuel attempt : ℕ) (last : String)
    (r : GeminiResponse) (h : attemptOutcome (oracle attempt) = .ok r) :
    runLoop oracle (fuel + 1) attempt last = ⟨1, [], .success r⟩ := by
  simp [runLoop, h]

theorem runLoop_authCase (oracle : ℕ → AttemptResult) (fuel attempt : ℕ) (last m : String)
    (h : attemptOutcome (oracle attempt) = .error m) (hA : isAuthMsg m = true) :
    runLoop oracle (fuel + 1) attempt last = ⟨1, [], .failure authErrMsg⟩ := by
  simp [runLoop, h, hA]

theorem runLoop_safetyCase (oracle : ℕ → AttemptResult) (fuel attempt : ℕ) (last m : String)
    (h : attemptOutcome (oracle attempt) = .error m)
    (hA : isAuthMsg m = false) (hS : isSafetyMsg m = true) :
    runLoop oracle (fuel + 1) attempt last = ⟨1, [], .failure safetyErrMsg⟩ := by
  simp [runLoop, h, hA, hS]

theorem runLoop_transientCase (oracle : ℕ → AttemptResult) (fuel attempt : ℕ) (last m : String)
    (h : attemptOutcome (oracle attempt) = .error m)
    (hA : isAuthMsg m = false) (hS : isSafetyMsg m = false) (hT : isTransientMsg m = true)
    (hlt : attempt < maxRetries - 1) :
    runLoop oracle (fuel + 1) attempt last =
      ⟨(runLoop oracle fuel (attempt + 1) m).attempts + 1,
       1000 * 2 ^ attempt :: (runLoop oracle fuel (attempt + 1) m).waits,
       (runLoop oracle fuel (attempt + 1) m).result⟩ := by
  simp [runLoop, h, hA, hS, hT, hlt]

theorem runLoop_breakCase (oracle : ℕ → AttemptResult) (fuel attempt : ℕ) (last m : String)
    (h : attemptOutcome (oracle attempt) = .error m)
    (hA : isAuthMsg m = false) (hS : isSafetyMsg m = false)
    (hbreak : isTransientMsg m = false ∨ ¬ attempt < maxRetries - 1) :
    runLoop oracle (fuel + 1) attempt last = ⟨1, [], .failure (finalMsg m)⟩ := by
  rcases hbreak with hT | hge
  · simp [runLoop, h, hA, hS, hT]
  · simp [runLoop, h, hA, hS, hge]

theorem runLoop_attempts_pos (oracle : ℕ → AttemptResult) (fuel attempt : ℕ) (last : String) :
    1 ≤ (runLoop oracle (fuel + 1) attempt last).attempts := by
  rcases h : attemptOutcome (oracle attempt) with m | r
  · simp only [runLoop, h]
    split_ifs <;> simp
  · simp [runLoop, h]

theorem analyzeStatement_validKey (rawKey : String) (oracle : ℕ → AttemptResult)
    (hkey : cleanApiKey rawKey ≠ "")
    (hkey2 : strStartsWith (cleanApiKey rawKey) "AIza" = true) :
    analyzeStatement rawKey oracle = runLoop oracle maxRetries 0 "" := by
  simp only [analyzeStatement]
  rw [if_neg hkey, if_neg (not_not_intro hkey2)]

theorem malformedKeyMsg_ne_missingKeyMsg (k : String) :
    malformedKeyMsg k ≠ missingKeyMsg := by
  intro h
  have h1 : (malformedKeyMsg k).data.head? = some 'A' := rfl
  have h2 : missingKeyMsg.data.head? = some 'C' := rfl
  rw [h, h2] at h1
  exact absurd h1 (by decide)

/-! ### Claim C3 -/

/-- C3: with a valid credential, when the external call fails with a
`Transient`-classified error on attempts 1 and 2 and returns a valid
response on attempt 3, `analyzeStatement` makes exactly 3 attempts, waits
`1000 * 2 ^ 0` ms after the first failure and `1000 * 2 ^ 1` ms after the
second (1 s then 2 s), and resolves with the validated result — the earlier
transient errors are not surfaced. -/
theorem C3_transient_retry_then_success (rawKey : String) (oracle : ℕ → AttemptResult)
    (m0 m1 : String) (r : RawResponse)
    (hkey : cleanApiKey rawKey ≠ "")
    (hkey2 : strStartsWith (cleanApiKey rawKey) "AIza" = true)
    (h0 : oracle 0 = .failure m0) (h1 : oracle 1 = .failure m1)
    (h2 : oracle 2 = .response r)
    (ht0 : classify m0 = .transient) (ht1 : classify m1 = .transient)
    (hcn : r.clientNamePresent = true) (hea : r.entriesIsArray = true) :
    analyzeStatement rawKey oracle
      = ⟨3, [1000, 2000], .success ⟨r.clientName, r.entries⟩⟩ := by
  obtain ⟨hA0, hS0, hT0⟩ := (classify_transient_iff m0).mp ht0
  obtain ⟨hA1, hS1, hT1⟩ := (classify_transient_iff m1).mp ht1
  have e0 : attemptOutcome (oracle 0) = .error m0 := by rw [h0]; rfl
  have e1 : attemptOutcome (oracle 1) = .error m1 := by rw [h1]; rfl
  have e2 : attemptOutcome (oracle 2) = .ok ⟨r.clientName, r.entries⟩ := by
    rw [h2]
    simp [attemptOutcome, hcn, hea]
  have L2 : runLoop oracle 1 2 m1 = ⟨1, [], .success ⟨r.clientName, r.entries⟩⟩ :=
    runLoop_ok oracle 0 2 m1 _ e2
  have L1 : runLoop oracle 2 1 m0 = ⟨2, [2000], .success ⟨r.clientName, r.entries⟩⟩ :=
    (runLoop_transientCase oracle 1 1 m0 m1 e1 hA1 hS1 hT1 (by decide)).trans
      (by rw [L2]; norm_num)
  rw [analyzeStatement_validKey rawKey oracle hkey hkey2]
  exact (runLoop_transientCase oracle 2 0 "" m0 e0 hA0 hS0 hT0 (by decide)).trans
    (by rw [L1]; norm_num)

/-- Oracle for the C3 witness: transient failures on the first two attempts,
a valid response on the third. -/
def oracleC3 : ℕ → AttemptResult := fun n =>
  if n < 2 then .failure "503" else .response ⟨true, true, "CLIENTE", []⟩

/-- C3, witness at a concrete oracle and key. -/
theorem C3_transient_retry_then_success_witness :
    analyzeStatement "AIzaKey" oracleC3 = ⟨3, [1000, 2000], .success ⟨"CLIENTE", []⟩⟩ :=
  C3_transient_retry_then_success "AIzaKey" oracleC3 "503" "503" ⟨true, true, "CLIENTE", []⟩
    (by decide) (by decide) rfl rfl rfl (by decide) (by decide) rfl rfl

/-! ### Claim C4 -/

/-- C4: with a valid credential, when the first attempt fails with an
`AuthError`-classified message the client stops after that single attempt
with no backoff wait and surfaces the auth guidance message; when it fails
with a `SafetyBlocked`-classified message it likewise stops immediately and
surfaces the safety message; the two messages are distinct, so the cause is
distinguishable. -/
theorem C4_fatal_short_circuit (rawKey : String) (oracle : ℕ → AttemptResult) (m : String)
    (hkey : cleanApiKey rawKey ≠ "")
    (hkey2 : strStartsWith (cleanApiKey rawKey) "AIza" = true)
    (h0 : oracle 0 = .failure m) :
    (classify m = .auth →
        analyzeStatement rawKey oracle = ⟨1, [], .failure authErrMsg⟩) ∧
      (classify m = .safety →
        analyzeStatement rawKey oracle = ⟨1, [], .failure safetyErrMsg⟩) ∧
      authErrMsg ≠ safetyErrMsg := by
  have e0 : attemptOutcome (oracle 0) = .error m := by rw [h0]; rfl
  refine ⟨fun hc => ?_, fun hc => ?_, by decide⟩
  · rw [analyzeStatement_validKey rawKey oracle hkey hkey2]
    exact runLoop_authCase oracle 2 0 "" m e0 ((classify_auth_iff m).mp hc)
  · obtain ⟨hA, hS⟩ := (classify_safety_iff m).mp hc
    rw [analyzeStatement_validKey rawKey oracle hkey hkey2]
    exact runLoop_safetyCase oracle 2 0 "" m e0 hA hS

/-- Oracle for the C4 witness: a 400-style auth failure on every attempt. -/
def oracleC4 : ℕ → AttemptResult := fun _ => .failure "Error 400: API_KEY_INVALID"

/-- C4, witness at a concrete oracle and key, using the auth branch. -/
theorem C4_fatal_short_circuit_witness :
    analyzeStatement "AIzaKey" oracleC4 = ⟨1, [], .failure authErrMsg⟩ :=
  (C4_fatal_short_circuit "AIzaKey" oracleC4 "Error 400: API_KEY_INVALID"
    (by decide) (by decide) rfl).1 (by decide)

/-! ### Claim C5 -/

/-- C5: with a valid credential, when all three attempts fail with
`Transient`-classified errors, `analyzeStatement` performs exactly 3
attempts (waiting 1 s and 2 s between them) and then fails surfacing the
last transient error message — no transient error is surfaced before the
attempt budget is exhausted. -/
theorem C5_transient_exhaustion (rawKey : String) (oracle : ℕ → AttemptResult)
    (m0 m1 m2 : String)
    (hkey : cleanApiKey rawKey ≠ "")
    (hkey2 : strStartsWith (cleanApiKey rawKey) "AIza" = true)
    (h0 : oracle 0 = .failure m0) (h1 : oracle 1 = .failure m1)
    (h2 : oracle 2 = .failure m2)
    (ht0 : classify m0 = .transient) (ht1 : classify m1 = .transient)
    (ht2 : classify m2 = .transient) :
    analyzeStatement rawKey oracle = ⟨3, [1000, 2000], .failure m2⟩ := by
  obtain ⟨hA0, hS0, hT0⟩ := (classify_transient_iff m0).mp ht0
  obtain ⟨hA1, hS1, hT1⟩ := (classify_transient_iff m1).mp ht1
  obtain ⟨hA2, hS2, hT2⟩ := (classify_transient_iff m2).mp ht2
  have e0 : attemptOutcome (oracle 0) = .error m0 := by rw [h0]; rfl
  have e1 : attemptOutcome (oracle 1) = .error m1 := by rw [h1]; rfl
  have e2 : attemptOutcome (oracle 2) = .error m2 := by rw [h2]; rfl
  have hfin : finalMsg m2 = m2 := if_neg (transient_msg_ne_empty m2 hT2)
  have L2 : runLoop oracle 1 2 m1 = ⟨1, [], .failure m2⟩ :=
    (runLoop_breakCase oracle 0 2 m1 m2 e2 hA2 hS2 (Or.inr (by decide))).trans
      (by rw [hfin])
  have L1 : runLoop oracle 2 1 m0 = ⟨2, [2000], .failure m2⟩ :=
    (runLoop_transientCase oracle 1 1 m0 m1 e1 hA1 hS1 hT1 (by decide)).trans
      (by rw [L2]; norm_num)
  rw [analyzeStatement_validKey rawKey oracle hkey hkey2]
  exact (runLoop_transientCase oracle 2 0 "" m0 e0 hA0 hS0 hT0 (by decide)).trans
    (by rw [L1]; norm_num)

/-- Oracle for the C5 witness: a transient overload failure on every
attempt. -/
def oracleC5 : ℕ → AttemptResult := fun _ => .failure "503 overloaded"

/-- C5, witness at a concrete oracle and key. -/
theorem C5_transient_exhaustion_witness :
    analyzeStatement "AIzaKey" oracleC5 = ⟨3, [1000, 2000], .failure "503 overloaded"⟩ :=
  C5_transient_exhaustion "AIzaKey" oracleC5 "503 overloaded" "503 overloaded" "503 overloaded"
    (by decide) (by decide) rfl rfl rfl (by decide) (by decide) (by decide)

/-! ### Claim C6 -/

/-- C6: with a valid credential, when the first attempt returns a response
whose parsed body lacks the `clientName` key or whose entry list is not an
array, `analyzeStatement` fails after that single attempt with the
malformed-structure message and performs no retry and no backoff wait. -/
theorem C6_malformed_no_retry (rawKey : String) (oracle : ℕ → AttemptResult)
    (r : RawResponse)
    (hkey : cleanApiKey rawKey ≠ "")
    (hkey2 : strStartsWith (cleanApiKey rawKey) "AIza" = true)
    (h0 : oracle 0 = .response r)
    (hbad : ¬ (r.clientNamePresent = true ∧ r.entriesIsArray = true)) :
    analyzeStatement rawKey oracle = ⟨1, [], .failure malformedResponseMsg⟩ := by
  have e0 : attemptOutcome (oracle 0) = .error malformedResponseMsg := by
    rw [h0]
    cases hcn : r.clientNamePresent <;> cases hea : r.entriesIsArray <;>
      simp [attemptOutcome, hcn, hea]
    exact absurd ⟨hcn, hea⟩ hbad
  rw [analyzeStatement_validKey rawKey oracle hkey hkey2]
  exact (runLoop_breakCase oracle 2 0 "" malformedResponseMsg e0 (by decide) (by decide)
    (Or.inl (by decide))).trans (by rw [show finalMsg malformedResponseMsg = malformedResponseMsg from by decide])

/-- Oracle for the C6 witness: a response whose body is missing the
`positiveEntries` array. -/
def oracleC6 : ℕ → AttemptResult := fun _ => .response ⟨true, false, "CLIENTE", []⟩

/-- C6, witness at a concrete oracle and key. -/
theorem C6_malformed_no_retry_witness :
    analyzeStatement "AIzaKey" oracleC6 = ⟨1, [], .failure malformedResponseMsg⟩ :=
  C6_malformed_no_retry "AIzaKey" oracleC6 ⟨true, false, "CLIENTE", []⟩
    (by decide) (by decide) rfl (by decide)

/-! ### Claim C7 -/

/-- C7: when the cleaned credential is empty, `analyzeStatement` fails with
the missing-configuration message after zero external attempts and zero
backoff waits; when it is non-empty but does not start with `AIza`, it
fails after zero attempts with the malformed-configuration message; the two
messages are distinct for every key, so the causes are distinguishable. -/
theorem C7_credential_validation (rawKey : String) (oracle : ℕ → AttemptResult) :
    (cleanApiKey rawKey = "" →
        analyzeStatement rawKey oracle = ⟨0, [], .failure missingKeyMsg⟩) ∧
      (cleanApiKey rawKey ≠ "" → strStartsWith (cleanApiKey rawKey) "AIza" = false →
        analyzeStatement rawKey oracle
          = ⟨0, [], .failure (malformedKeyMsg (cleanApiKey rawKey))⟩) ∧
      (∀ k : String, malformedKeyMsg k ≠ missingKeyMsg) := by
  refine ⟨fun h => ?_, fun h h2 => ?_, malformedKeyMsg_ne_missingKeyMsg⟩
  · simp only [analyzeStatement]
    rw [if_pos h]
  · simp only [analyzeStatement]
    rw [if_neg h, if_pos (by simp [h2])]

/-- C7, witness: a key that cleans to the empty string triggers the
missing-configuration failure with zero attempts, via the first branch of
the theorem at the concrete raw key `"  "`. -/
theorem C7_credential_validation_witness :
    analyzeStatement "  " oracleC5 = ⟨0, [], .failure missingKeyMsg⟩ :=
  (C7_credential_validation "  " oracleC5).1 (by decide)

/-! ### Claim C10 -/

/-- C10: the credential is validated only through its cleaned form —
`trim` followed by stripping one leading and one trailing quote — so a key
pasted with surrounding spaces or quotes is accepted; the run stops with
zero external attempts exactly when the cleaned key is empty or lacks the
`AIza` prefix; the missing-credential failure occurs if and only if the
cleaned key is empty, and the malformed-credential failure if and only if
the cleaned key is non-empty without the `AIza` prefix; a cleaned key with
the prefix resolves to the retry loop, making at least one attempt. -/
theorem C10_key_cleaning (rawKey : String) (oracle : ℕ → AttemptResult) :
    cleanApiKey rawKey = stripQuotes (strTrim rawKey) ∧
      ((analyzeStatement rawKey oracle).attempts = 0 ↔
        (cleanApiKey rawKey = "" ∨ strStartsWith (cleanApiKey rawKey) "AIza" = false)) ∧
      (analyzeStatement rawKey oracle = ⟨0, [], .failure missingKeyMsg⟩ ↔
        cleanApiKey rawKey = "") ∧
      (analyzeStatement rawKey oracle
          = ⟨0, [], .failure (malformedKeyMsg (cleanApiKey rawKey))⟩ ↔
        (cleanApiKey rawKey ≠ "" ∧ strStartsWith (cleanApiKey rawKey) "AIza" = false)) ∧
      (strStartsWith (cleanApiKey rawKey) "AIza" = true →
        analyzeStatement rawKey oracle = runLoop oracle maxRetries 0 "" ∧
          1 ≤ (analyzeStatement rawKey oracle).attempts) := by
  have hclean : cleanApiKey rawKey = stripQuotes (strTrim rawKey) := by
    by_cases h : rawKey = ""
    · subst h; rfl
    · simp [cleanApiKey, h]
  by_cases hempty : cleanApiKey rawKey = ""
  · have hrun : analyzeStatement rawKey oracle = ⟨0, [], .failure missingKeyMsg⟩ := by
      simp only [analyzeStatement]
      rw [if_pos hempty]
    have hpre : strStartsWith (cleanApiKey rawKey) "AIza" = false := by
      rw [hempty]; decide
    refine ⟨hclean, ?_, ?_, ?_, ?_⟩
    · simp [hrun, hempty]
    · simp [hrun, hempty]
    · constructor
      · intro h0
        rw [hrun, hempty] at h0
        have hres : AnalyzeResult.failure missingKeyMsg
            = AnalyzeResult.failure (malformedKeyMsg "") := congrArg RunTrace.result h0
        have hmm : missingKeyMsg = malformedKeyMsg "" := by injection hres
        exact absurd hmm.symm (malformedKeyMsg_ne_missingKeyMsg "")
      · rintro ⟨hne, -⟩
        exact absurd hempty hne
    · intro hsw
      rw [hpre] at hsw
      exact absurd hsw (by decide)
  · by_cases hpre : strStartsWith (cleanApiKey rawKey) "AIza" = true
    · have hrun : analyzeStatement rawKey oracle = runLoop oracle maxRetries 0 "" :=
        analyzeStatement_validKey rawKey oracle hempty hpre
      have hpos : 1 ≤ (analyzeStatement rawKey oracle).attempts := by
        rw [hrun]
        exact runLoop_attempts_pos oracle 2 0 ""
      refine ⟨hclean, ?_, ?_, ?_, fun _ => ⟨hrun, hpos⟩⟩
      · constructor
        · intro h0
          omega
        · rintro (h | h)
          · exact absurd h hempty
          · rw [h] at hpre; exact absurd hpre (by decide)
      · constructor
        · intro h0
          have := congrArg RunTrace.attempts h0
          simp at this
          omega
        · intro h; exact absurd h hempty
      · constructor
        · intro h0
          have := congrArg RunTrace.attempts h0
          simp at this
          omega
        · rintro ⟨-, h⟩
          rw [h] at hpre; exact absurd hpre (by decide)
    · have hpre' : strStartsWith (cleanApiKey rawKey) "AIza" = false := by
        cases h : strStartsWith (cleanApiKey rawKey) "AIza"
        · rfl
        · exact absurd h hpre
      have hrun : analyzeStatement rawKey oracle
          = ⟨0, [], .failure (malformedKeyMsg (cleanApiKey rawKey))⟩ := by
        simp only [analyzeStatement]
        rw [if_neg hempty, if_pos (by simp [hpre'])]
      refine ⟨hclean, ?_, ?_, ?_, ?_⟩
      · simp [hrun, hpre']
      · simp [hrun]
        constructor
        · intro hcontra
          exact absurd hcontra (by simpa using malformedKeyMsg_ne_missingKeyMsg (cleanApiKey rawKey))
        · intro h; exact absurd h hempty
      · simp [hrun, hempty, hpre']
      · intro hsw
        rw [hpre'] at hsw
        exact absurd hsw (by decide)

/-- C10, witness: a key pasted with surrounding spaces and quotes cleans to
`"AIzaKey"` and is accepted, instantiating the theorem at a concrete raw
key and oracle. -/
theorem C10_key_cleaning_witness :
    cleanApiKey " \x27AIzaKey\x27 " = stripQuotes (strTrim " \x27AIzaKey\x27 ") ∧
      ((analyzeStatement " \x27AIzaKey\x27 " oracleC5).attempts = 0 ↔
        (cleanApiKey " \x27AIzaKey\x27 " = "" ∨
          strStartsWith (cleanApiKey " \x27AIzaKey\x27 ") "AIza" = false)) ∧
      (analyzeStatement " \x27AIzaKey\x27 " oracleC5 = ⟨0, [], .failure missingKeyMsg⟩ ↔
        cleanApiKey " \x27AIzaKey\x27 " = "") ∧
      (analyzeStatement " \x27AIzaKey\x27 " oracleC5
          = ⟨0, [], .failure (malformedKeyMsg (cleanApiKey " \x27AIzaKey\x27 "))⟩ ↔
        (cleanApiKey " \x27AIzaKey\x27 " ≠ "" ∧
          strStartsWith (cleanApiKey " \x27AIzaKey\x27 ") "AIza" = false)) ∧
      (strStartsWith (cleanApiKey " \x27AIzaKey\x27 ") "AIza" = true →
        analyzeStatement " \x27AIzaKey\x27 " oracleC5 = runLoop oracleC5 maxRetries 0 "" ∧
          1 ≤ (analyzeStatement " \x27AIzaKey\x27 " oracleC5).attempts) :=
  C10_key_cleaning " \x27AIzaKey\x27 " oracleC5

end BankAnalyzer
